import Mathlib

/-!
# A verification development for the HotShot consensus core

This file is a shallow embedding, in Lean 4, of the parts of the HotShot BFT
consensus engine that its natural-language specification talks about, together
with theorems checking the specification's sentences against the embedded code.

Conventions of the embedding:
* machine integers (`u64` view numbers and the like) are modelled as `Nat`;
* public keys, signatures, commitments and other opaque byte objects are
  modelled as `Nat` identifiers; byte strings are `List Nat`;
* cryptographic functions (hashing, signature validation, leader election)
  are fields of an explicit environment record, so theorems quantify over them;
* the content hash `commit(leaf)` of a leaf is modelled by the leaf value
  itself (contents are compared for equality, as an injective hash would do);
* fallible code returns `Except String` mirroring `anyhow::Result`;
* definitions whose Rust source is not part of the repository subset under
  inspection (for example `Consensus` in `crates/types/src/consensus.rs`) are
  modelled from the specification's words and say so in their doc comment.
-/

namespace HotShot

/-- Protocol version: a (major, minor) pair, as in `vbs::version::Version`. -/
structure Version where
  major : Nat
  minor : Nat
deriving DecidableEq, Repr

/-- Base protocol version, set to 0.1 (`crates/types/src/constants.rs`). -/
def baseVersion : Version := ⟨0, 1⟩

/-- Upgraded protocol version, set to 0.2 (`crates/types/src/constants.rs`). -/
def upgradeVersion : Version := ⟨0, 2⟩

/-- The part of an `UpgradeCertificate`'s data that versioned (de)serialization
reads: the first view at which the new version applies, and the new version. -/
structure UpgradeCertificate where
  newVersionFirstView : Nat
  newVersion : Version
deriving DecidableEq, Repr

/-- `SequencingMessage` (`crates/types/src/message.rs`) is a large sum of
consensus messages; for the claims below only the view number it reports via
its `view_number` method matters, so its payload is abstracted to that view. -/
structure SequencingMessage where
  view_number : Nat
deriving DecidableEq, Repr

/-- `RequestKind` from `crates/types/src/traits/network.rs`. -/
inductive RequestKind where
  /-- Request VID data by our key and the VID commitment. -/
  | vid (view : Nat) (key : Nat)
  /-- Request a DA proposal for a certain view. -/
  | daProposal (view : Nat)
  /-- Request for quorum proposal for a view. -/
  | proposal (view : Nat)
deriving DecidableEq, Repr

/-- `DataRequest` from `crates/types/src/traits/network.rs`. -/
structure DataRequest where
  request : RequestKind
  view : Nat
  signature : Nat
deriving DecidableEq, Repr

/-- `ResponseMessage` from `crates/types/src/traits/network.rs`. -/
inductive ResponseMessage where
  /-- Peer returned us some data. -/
  | found (m : SequencingMessage)
  /-- Peer failed to get us data. -/
  | notFound
  /-- The request was denied. -/
  | denied
deriving DecidableEq, Repr

/-- `DataMessage` from `crates/types/src/message.rs`. -/
inductive DataMessage where
  | submitTransaction (tx : Nat) (view : Nat)
  | requestData (r : DataRequest)
  | dataResponse (r : ResponseMessage)
deriving DecidableEq, Repr

/-- `MessageKind` from `crates/types/src/message.rs`. -/
inductive MessageKind where
  | consensus (m : SequencingMessage)
  | data (m : DataMessage)
deriving DecidableEq, Repr

/-- `Message` from `crates/types/src/message.rs`. -/
structure Message where
  sender : Nat
  kind : MessageKind
deriving DecidableEq, Repr

/-- `impl ViewMessage for MessageKind`, `view_number` (message.rs, lines
222-233).  `TYPES::Time::new(1)` is the view number 1. -/
def MessageKind.view_number : MessageKind → Nat
  | .consensus m => m.view_number
  | .data (.submitTransaction _ v) => v
  | .data (.requestData msg) => msg.view
  | .data (.dataResponse (.found m)) => m.view_number
  | .data (.dataResponse .notFound) => 1
  | .data (.dataResponse .denied) => 1

/-- `Message::view_number` delegates to the kind (message.rs, lines 155-160). -/
def Message.view_number (m : Message) : Nat :=
  m.kind.view_number

/-! ## Versioned serialization (`VersionedMessage`, message.rs lines 50-144)

The wire format `Serializer::<V>::serialize` produces is a 2-byte version
prefix followed by the bincode encoding of the message.  The embedding models
the encoded bytes as the pair of the version and the message itself (bincode
round-trips losslessly, so the body is kept as the message value). -/

/-- The wire form of a versioned message: version prefix plus body. -/
structure VersionedBytes where
  version : Version
  body : Message
deriving DecidableEq, Repr

/-- The version selection block that both `VersionedMessage::serialize` and
`VersionedMessage::deserialize` contain verbatim (message.rs, lines 66-81 and
118-133): choose Upgrade when the certificate applies at this view and carries
the Upgrade version, refuse an applicable certificate for an unknown version,
and fall back to Base otherwise. -/
def VersionedMessage.versionFor (upgrade_certificate : Option UpgradeCertificate)
    (view : Nat) : Except String Version :=
  match upgrade_certificate with
  | some cert =>
    if cert.newVersionFirstView ≤ view ∧ cert.newVersion = upgradeVersion then
      Except.ok upgradeVersion
    else if cert.newVersionFirstView ≤ view ∧ cert.newVersion ≠ upgradeVersion then
      Except.error "The network has upgraded to a new version that we do not support!"
    else
      Except.ok baseVersion
  | none => Except.ok baseVersion

/-- `VersionedMessage::serialize` (message.rs, lines 60-92): pick the version
mandated by the optional decided upgrade certificate for the message's view,
then serialize under that version. -/
def VersionedMessage.serialize (m : Message) (upgrade_certificate : Option UpgradeCertificate) :
    Except String VersionedBytes :=
  match VersionedMessage.versionFor upgrade_certificate m.view_number with
  | .error e => .error e
  | .ok version =>
    if version = baseVersion ∨ version = upgradeVersion then
      .ok ⟨version, m⟩
    else
      .error "Attempted to serialize with an incompatible version. This should be impossible."

/-- `VersionedMessage::deserialize` (message.rs, lines 99-141): read the 2-byte
version prefix, decode the body under that version, then check the version
against the one the upgrade certificate mandates for the decoded view. -/
def VersionedMessage.deserialize (message : VersionedBytes)
    (upgrade_certificate : Option UpgradeCertificate) : Except String Message :=
  let version := message.version
  match (if version = baseVersion ∨ version = upgradeVersion then
          Except.ok message.body
        else
          Except.error "Cannot deserialize message!" : Except String Message) with
  | .error e => .error e
  | .ok deserialized_message =>
    match VersionedMessage.versionFor upgrade_certificate deserialized_message.view_number with
    | .error e => .error e
    | .ok expected_version =>
      if version = expected_version then
        .ok deserialized_message
      else
        .error "Message has invalid version number for its view."

/-- The version the specification says is mandated for a view under an optional
decided upgrade certificate: Base when there is no certificate or the view is
below `new_version_first_view`; Upgrade when the view is at or above
`new_version_first_view` and the certificate's `new_version` is the Upgrade
version.  (Stated from the specification's words, for comparison.) -/
def mandatedVersionSpec (upgrade_certificate : Option UpgradeCertificate) (view : Nat) :
    Option Version :=
  match upgrade_certificate with
  | none => some baseVersion
  | some cert =>
    if view < cert.newVersionFirstView then some baseVersion
    else if cert.newVersion = upgradeVersion then some upgradeVersion
    else none

/-- A concrete message used by witnesses: a `NotFound` data response. -/
def exampleMessage : Message :=
  ⟨0, .data (.dataResponse .notFound)⟩

/-! ## Shared data model: leaves, certificates, proposals -/

/-- `Leaf` (`crates/types/src/data.rs`), restricted to the fields the embedded
handlers read.  `Leaf::from_quorum_proposal` fills these from a proposal. -/
structure Leaf where
  view_number : Nat
  parent_commitment : Nat
  block_header : Nat
deriving DecidableEq, Repr

/-- `QuorumCertificate`, restricted to the fields the embedded handlers read:
the commit of the certified leaf (`data.leaf_commit`) and the view. -/
structure QuorumCertificate where
  leaf_commit : Nat
  view_number : Nat
deriving DecidableEq, Repr

/-- `TimeoutCertificate2`-style timeout certificate: only its view matters. -/
structure TimeoutCertificate where
  view_number : Nat
deriving DecidableEq, Repr

/-- `ViewSyncFinalizeCertificate2`: only its view matters here. -/
structure ViewSyncFinalizeCertificate2 where
  view_number : Nat
deriving DecidableEq, Repr

/-- `ViewChangeEvidence` (`crates/types/src/data.rs`): the optional secondary
certificate attached to a quorum proposal. -/
inductive ViewChangeEvidence where
  | timeout (tc : TimeoutCertificate)
  | viewSync (vsc : ViewSyncFinalizeCertificate2)
deriving DecidableEq, Repr

/-- Modelled from the spec: `ViewChangeEvidence::is_valid_for_view`
(`crates/types/src/data.rs` is not among the sources).  Per the dependency
mapping of spec section 4.7, a timeout certificate belongs to view `V` when it
certifies `V-1`, and a view-sync finalize certificate when it certifies `V`. -/
def ViewChangeEvidence.is_valid_for_view : ViewChangeEvidence → Nat → Bool
  | .timeout tc, view => tc.view_number + 1 == view
  | .viewSync vsc, view => vsc.view_number == view

/-- `QuorumProposal` (`crates/types/src/data.rs`), with the block header kept
as an opaque identifier. -/
structure QuorumProposal where
  block_header : Nat
  view_number : Nat
  justify_qc : QuorumCertificate
  proposal_certificate : Option ViewChangeEvidence
  upgrade_certificate : Option UpgradeCertificate
deriving DecidableEq, Repr

/-- `Proposal<TYPES, PROPOSAL>` (`crates/types/src/message.rs`): proposed data
plus the proposer's signature. -/
structure Proposal (P : Type) where
  data : P
  signature : Nat
deriving DecidableEq, Repr

/-- `DaProposal` (`crates/types/src/data.rs`): encoded transactions (bytes)
and the view; the metadata is not read by the embedded code. -/
structure DaProposal where
  encoded_transactions : List Nat
  view_number : Nat
deriving DecidableEq, Repr

/-- `Leaf::from_quorum_proposal`: the leaf determined by a quorum proposal;
its parent commitment is the justify QC's leaf commit. -/
def Leaf.from_quorum_proposal (p : QuorumProposal) : Leaf :=
  ⟨p.view_number, p.justify_qc.leaf_commit, p.block_header⟩

/-- The opaque cryptographic, membership and state-derivation functions the
embedded tasks call.  Theorems quantify over an arbitrary environment. -/
structure Env where
  /-- `Sha256::digest`. -/
  sha256 : List Nat → List Nat
  /-- `key.validate(signature, data)`. -/
  validate : Nat → Nat → List Nat → Bool
  /-- `bincode::serialize` of a `RequestKind` (an injective encoding). -/
  bincodeKind : RequestKind → List Nat
  /-- `commit(leaf)`: the content hash of a leaf. -/
  leafCommit : Leaf → Nat
  /-- `ValidatedState::from_header`. -/
  fromHeader : Nat → Nat
  /-- `da_membership.leader(view)`. -/
  daLeader : Nat → Nat
  /-- `quorum_membership.has_stake(key)`. -/
  quorumHasStake : Nat → Bool
  /-- The quorum committee members (for VID share derivation). -/
  members : List Nat
  /-- Derivation of one VID share from a payload for a recipient key. -/
  computeShare : List Nat → Nat → Nat

/-! ## Association lists standing for the B-tree / hash maps -/

/-- Lookup in an association list (the map abstraction used throughout). -/
def lookupA {α : Type} (k : Nat) : List (Nat × α) → Option α
  | [] => none
  | (k2, v) :: rest => if k2 = k then some v else lookupA k rest

/-- Insert-or-overwrite in an association list. -/
def insertA {α : Type} (k : Nat) (v : α) (l : List (Nat × α)) : List (Nat × α) :=
  (k, v) :: l.filter (fun p => p.1 != k)

/-! ## The shared `Consensus` object (spec section 3; its Rust source,
`crates/types/src/consensus.rs`, is not part of the inspected subset, so the
structure and its update operations are modelled from the spec's words). -/

/-- `ViewInner` (`crates/types/src/utils.rs`): one entry of the validated
state map. -/
inductive ViewInner where
  | leaf (leaf_commit : Nat) (state : Nat) (delta : Option Nat)
  | da (payload_commitment : Nat)
  | failed
deriving DecidableEq, Repr

/-- Modelled from the spec: the fields of `Consensus`
(`crates/types/src/consensus.rs` is not among the sources) that the embedded
tasks read and write. -/
structure Consensus where
  cur_view : Nat
  locked_view : Nat
  high_qc : QuorumCertificate
  validated_state_map : List (Nat × ViewInner)
  saved_leaves : List (Nat × Leaf)
  saved_payloads : List (Nat × List Nat)
  vid_shares : List (Nat × List (Nat × Nat))
  last_proposals : List (Nat × Proposal QuorumProposal)
deriving DecidableEq, Repr

/-- Modelled from the spec: `Consensus::update_validated_state_map` "refuses
to overwrite a `Leaf` entry with `Failed`; otherwise last-writer-wins"
(spec section 3, invariant 4). -/
def Consensus.update_validated_state_map (st : Consensus) (view : Nat) (entry : ViewInner) :
    Except String Consensus :=
  match lookupA view st.validated_state_map, entry with
  | some (.leaf _ _ _), .failed =>
    .error "Skipping the state update to avoid overwriting a Leaf view."
  | _, _ =>
    .ok { st with validated_state_map := insertA view entry st.validated_state_map }

/-- Modelled from the spec: `Consensus::update_saved_leaves` "insert by
commit, idempotent" (spec section 4.2). -/
def Consensus.update_saved_leaves (env : Env) (st : Consensus) (leaf : Leaf) : Consensus :=
  { st with saved_leaves := insertA (env.leafCommit leaf) leaf st.saved_leaves }

/-- Modelled from the spec: `Consensus::update_high_qc` "accepts strictly
higher view; otherwise no-op with trace" (spec section 3, invariant 3). -/
def Consensus.update_high_qc (st : Consensus) (qc : QuorumCertificate) :
    Except String Consensus :=
  if st.high_qc.view_number < qc.view_number then
    .ok { st with high_qc := qc }
  else
    .error "High QC with an equal or higher view exists."

/-- Modelled from the spec: `Consensus::state_and_delta` — a validated state
is available only for a `Leaf` entry of the validated state map. -/
def Consensus.state_and_delta (st : Consensus) (view : Nat) : Option Nat × Option Nat :=
  match lookupA view st.validated_state_map with
  | some (.leaf _ s d) => (some s, d)
  | _ => (none, none)

/-- Modelled from the spec: `Consensus::calculate_and_update_vid` — "if
payload present and share absent for self, derive and insert; returns `None`
if payload not yet available"; a second compute is a no-op (spec section 3,
invariant 7).  Shares are derived for every committee member. -/
def Consensus.calculate_and_update_vid (env : Env) (st : Consensus) (view : Nat) :
    Consensus × Option Unit :=
  match lookupA view st.saved_payloads with
  | none => (st, none)
  | some payload =>
    match lookupA view st.vid_shares with
    | some _ => (st, some ())
    | none =>
      let shares := env.members.map (fun k => (k, env.computeShare payload k))
      ({ st with vid_shares := insertA view shares st.vid_shares }, some ())

/-! ## DA task (`crates/task-impls/src/da.rs`) -/

/-- The `DaProposalRecv` arm of `DaTaskState::handle` (da.rs, lines 92-142).
`cur_view` is the task's view; `TYPES::Time::genesis()` is view 0.  Returns
the content of the `DaProposalValidated` event when one is broadcast, `none`
when the proposal is dropped. -/
def DaTaskState.handleDaProposalRecv (env : Env) (cur_view : Nat) (consensus : Consensus)
    (proposal : Proposal DaProposal) (sender : Nat) :
    Option (Proposal DaProposal × Nat) :=
  let view := proposal.data.view_number
  if cur_view ≠ 0 ∧ view < cur_view - 1 then
    none
  else if (lookupA view consensus.saved_payloads).isSome then
    none
  else
    let encoded_transactions_hash := env.sha256 proposal.data.encoded_transactions
    let view_leader_key := env.daLeader view
    if view_leader_key ≠ sender then
      none
    else if ¬ env.validate view_leader_key proposal.signature encoded_transactions_hash then
      none
    else
      some (proposal, sender)

/-! ## Response task (`crates/task-impls/src/response.rs`) -/

/-- `NetworkResponseState`: the fields the handler reads (the membership and
key material live in `Env`). -/
structure NetworkResponseState where
  pub_key : Nat
deriving DecidableEq, Repr

/-- `valid_signature` (response.rs, lines 228-236): the sender's signature
must validate over the SHA256 digest of the bincode encoding of the request
kind. -/
def valid_signature (env : Env) (req : DataRequest) (sender : Nat) : Bool :=
  env.validate sender req.signature (env.sha256 (env.bincodeKind req.request))

/-- `NetworkResponseState::valid_sender` (response.rs, lines 213-215). -/
def NetworkResponseState.valid_sender (env : Env) (sender : Nat) : Bool :=
  env.quorumHasStake sender

/-- `NetworkResponseState::make_msg` (response.rs, lines 206-211). -/
def NetworkResponseState.make_msg (nrs : NetworkResponseState) (msg : ResponseMessage) :
    Message :=
  ⟨nrs.pub_key, .data (.dataResponse msg)⟩

/-- `NetworkResponseState::get_or_calc_vid_share` (response.rs, lines
136-184): look the share up, calculating it (with one retry after the
`TXNS_TIMEOUT` sleep) when absent. -/
def NetworkResponseState.get_or_calc_vid_share (env : Env) (st : Consensus)
    (view : Nat) (key : Nat) : Consensus × Option Nat :=
  let contained := match lookupA view st.vid_shares with
    | some m => (lookupA key m).isSome
    | none => false
  if !contained then
    let r1 := Consensus.calculate_and_update_vid env st view
    if r1.2.isNone then
      let r2 := Consensus.calculate_and_update_vid env r1.1 view
      match r2.2 with
      | none => (r2.1, none)
      | some _ => (r2.1, (lookupA view r2.1.vid_shares).bind (lookupA key))
    else
      (r1.1, (lookupA view r1.1.vid_shares).bind (lookupA key))
  else
    (st, (lookupA view st.vid_shares).bind (lookupA key))

/-- `NetworkResponseState::respond_with_proposal` (response.rs, lines
217-224). -/
def NetworkResponseState.respond_with_proposal (st : Consensus) (view : Nat) :
    ResponseMessage :=
  match lookupA view st.last_proposals with
  | some prop => .found ⟨prop.data.view_number⟩
  | none => .notFound

/-- `NetworkResponseState::handle_request` (response.rs, lines 189-202). -/
def NetworkResponseState.handle_request (env : Env) (nrs : NetworkResponseState)
    (st : Consensus) (req : DataRequest) : Consensus × Message :=
  match req.request with
  | .vid view pub_key =>
    let r := NetworkResponseState.get_or_calc_vid_share env st view pub_key
    match r.2 with
    | none => (r.1, nrs.make_msg .notFound)
    | some _ => (r.1, nrs.make_msg (.found ⟨view⟩))
  | .daProposal _ => (st, nrs.make_msg .notFound)
  | .proposal view => (st, nrs.make_msg (NetworkResponseState.respond_with_proposal st view))

/-- `NetworkResponseState::handle_message` (response.rs, lines 90-131):
deserialize (already done by the caller in this embedding), reject
non-`DataRequest` kinds, check the sender and signature, then serve the
request.  Returns the updated shared consensus state and the reply sent on
the response channel, if any. -/
def NetworkResponseState.handle_message (env : Env) (nrs : NetworkResponseState)
    (st : Consensus) (req : Message) : Consensus × Option Message :=
  match req.kind with
  | .data (.requestData request) =>
    if ¬ NetworkResponseState.valid_sender env req.sender
        ∨ ¬ valid_signature env request req.sender then
      (st, some (nrs.make_msg .denied))
    else
      let r := NetworkResponseState.handle_request env nrs st request
      (r.1, some r.2)
  | _ => (st, none)

/-! ## Request task (`crates/task-impls/src/request.rs`) -/

/-- One observation of shared state by the VID request loop: the value of the
shutdown flag and the consensus snapshot read under the lock in
`cancel_vid`. -/
structure RequesterObservation where
  shutdown_flag : Bool
  consensus : Consensus
deriving DecidableEq, Repr

/-- `DelayedRequester::cancel_vid` (request.rs, lines 390-396): true when the
loop should stop (shutdown, data present, or the view has moved on). -/
def cancel_vid (obs : RequesterObservation) (view : Nat) : Bool :=
  obs.shutdown_flag
    || (lookupA view obs.consensus.vid_shares).isSome
    || decide (view < obs.consensus.cur_view)

/-- The request-issuing loop of `DelayedRequester::do_vid` (request.rs, lines
338-388), abstracted over the successive states the `while` condition
observes: the number of peer requests issued before the loop stops. -/
def do_vid (view : Nat) : List RequesterObservation → Nat
  | [] => 0
  | obs :: rest => if cancel_vid obs view then 0 else do_vid view rest + 1

/-- `DelayedRequester::run` (request.rs, lines 325-336): for a VID request,
sleep the configured delay first only when the primary network is up, then
run the request loop.  Returns whether the delay preceded the first request
and the number of requests issued. -/
def DelayedRequester.run (is_primary_down : Bool) (request : RequestKind)
    (states : List RequesterObservation) : Bool × Nat :=
  match request with
  | .vid view _ => (!is_primary_down, do_vid view states)
  | .daProposal _ => (false, 0)
  | .proposal _ => (false, 0)

/-! ## Quorum proposal receive task
(`crates/task-impls/src/quorum_proposal_recv/handlers.rs`) -/

/-- `QuorumProposalValidity` (handlers.rs, lines 38-44). -/
inductive QuorumProposalValidity where
  | fully
  | liveness
deriving DecidableEq, Repr

/-- The abstract `Storage` (spec section 4.3), as the durable values the
embedded handlers write: the persisted high QC view
(`Storage::update_high_qc`) and the undecided-state checkpoint
(`Storage::update_undecided_state`).  Writes are modelled as succeeding. -/
structure Storage where
  high_qc_view : Nat
  undecided_state : Option (List (Nat × Leaf) × List (Nat × ViewInner))
deriving DecidableEq, Repr

/-- Events the receive handlers broadcast on the internal bus. -/
inductive RecvEvent where
  | viewChange (view : Nat)
  | updateHighQc (qc : QuorumCertificate)
  | validatedStateUpdated (view : Nat) (entry : ViewInner)
deriving DecidableEq, Repr

/-- The outcome of a receive handler: its return value together with the
shared consensus state, the storage and the events broadcast on the way
(whether or not the handler returned an error). -/
structure RecvOutcome where
  result : Except String QuorumProposalValidity
  consensus : Consensus
  storage : Storage
  broadcasts : List RecvEvent

/-- `validate_proposal_liveness` (handlers.rs, lines 47-103): record the
proposed leaf and its state, checkpoint the undecided state to storage,
broadcast `ValidatedStateUpdated`, then check liveness
(`justify_qc.view_number > locked_view`) and fail if it does not hold. -/
def validate_proposal_liveness (env : Env) (st : Consensus) (storage : Storage)
    (proposal : Proposal QuorumProposal) : RecvOutcome :=
  let view_number := proposal.data.view_number
  let leaf := Leaf.from_quorum_proposal proposal.data
  let state := env.fromHeader proposal.data.block_header
  let view : ViewInner := .leaf (env.leafCommit leaf) state none
  let st1 := match st.update_validated_state_map view_number view with
    | .ok s => s
    | .error _ => st
  let st2 := Consensus.update_saved_leaves env st1 leaf
  let storage1 := { storage with
    undecided_state := some (st2.saved_leaves, st2.validated_state_map) }
  let liveness_check := st2.locked_view < proposal.data.justify_qc.view_number
  let broadcasts := [RecvEvent.validatedStateUpdated view_number view]
  if liveness_check then
    ⟨.ok .liveness, st2, storage1, broadcasts⟩
  else
    ⟨.error "Liveness invalid.", st2, storage1, broadcasts⟩

/-- The results of the external checks `handle_quorum_proposal_recv` invokes
whose implementations live outside the inspected subset
(`validate_proposal_view_and_certs`, `justify_qc.is_valid_cert`,
`fetch_proposal`, `validate_proposal_safety_and_liveness`). -/
structure RecvChecks where
  view_and_certs_ok : Bool
  justify_qc_valid : Bool
  fetched_parent : Option Leaf
  safety_and_liveness_ok : Bool
deriving Repr

/-- `handle_quorum_proposal_recv` (handlers.rs, lines 113-240): validate the
view and certificates, validate the justify QC, update the view, look the
parent leaf up (falling back to the fetched one), resolve its state, advance
the high QC in storage and consensus, then run the full validation or, when
the parent leaf is missing, the liveness-only path. -/
def handle_quorum_proposal_recv (env : Env) (checks : RecvChecks) (st : Consensus)
    (storage : Storage) (proposal : Proposal QuorumProposal) : RecvOutcome :=
  if ¬ checks.view_and_certs_ok then
    ⟨.error "Failed to validate proposal view or attached certs", st, storage, []⟩
  else
    let view_number := proposal.data.view_number
    let justify_qc := proposal.data.justify_qc
    if ¬ checks.justify_qc_valid then
      ⟨.error "Invalid justify_qc in proposal", st, storage, []⟩
    else
      let stepView : Consensus × List RecvEvent :=
        if st.cur_view < view_number then
          ({ st with cur_view := view_number }, [RecvEvent.viewChange view_number])
        else (st, [])
      let st1 := stepView.1
      let evs1 := stepView.2
      let parent_leaf : Option Leaf :=
        match lookupA justify_qc.leaf_commit st1.saved_leaves with
        | some p => some p
        | none => checks.fetched_parent
      let parentE : Except String (Option (Leaf × Nat)) :=
        match parent_leaf with
        | some leaf =>
          match Consensus.state_and_delta st1 leaf.view_number with
          | (some s, _) => .ok (some (leaf, s))
          | (none, _) => .error "Parent state not found! Consensus internally inconsistent"
        | none => .ok none
      match parentE with
      | .error e => ⟨.error e, st1, storage, evs1⟩
      | .ok parent =>
        let storage1 :=
          if st1.high_qc.view_number < justify_qc.view_number then
            { storage with high_qc_view := justify_qc.view_number }
          else storage
        let st2 := match st1.update_high_qc justify_qc with
          | .ok s => s
          | .error _ => st1
        let evs2 := evs1 ++ [RecvEvent.updateHighQc justify_qc]
        match parent with
        | none =>
          let out := validate_proposal_liveness env st2 storage1 proposal
          ⟨out.result, out.consensus, out.storage, evs2 ++ out.broadcasts⟩
        | some _ =>
          if checks.safety_and_liveness_ok then
            ⟨.ok .fully, st2, storage1, evs2⟩
          else
            ⟨.error "Failed safety and liveness check", st2, storage1, evs2⟩

/-! ## Quorum proposal task (`crates/task-impls/src/quorum_proposal/mod.rs`) -/

/-- `ProposalDependency` (dependency_handle.rs, lines 33-52). -/
inductive ProposalDependency where
  | payloadAndMetadata
  | qc
  | viewSyncCert
  | timeoutCert
  | proposal
  | vidShare
deriving DecidableEq, Repr

/-- The internal events `create_event_dependency` inspects, with payloads
abstracted to the view each predicate reads (for `UpdateHighQc` the QC's
view, for the timeout arm of `QcFormed` the timeout certificate's view, and
so on). -/
inductive ProposalEvent where
  | updateHighQc (qc_view : Nat)
  | qcFormedTimeout (tc_view : Nat)
  | viewSyncFinalizeCertificate2Recv (cert_view : Nat)
  | quorumProposalRecv (proposal_view : Nat)
  | sendPayloadCommitmentAndMetadata (view : Nat)
  | vidDisperseSend (share_view : Nat)
  | otherEvent
deriving DecidableEq, Repr

/-- The predicate of `create_event_dependency` (mod.rs, lines 96-166): does
this event complete the given dependency for the given view? -/
def create_event_dependency (dependency_type : ProposalDependency) (view_number : Nat)
    (event : ProposalEvent) : Bool :=
  match dependency_type, event with
  | .qc, .updateHighQc qc_view => qc_view + 1 == view_number
  | .timeoutCert, .qcFormedTimeout tc_view => tc_view + 1 == view_number
  | .viewSyncCert, .viewSyncFinalizeCertificate2Recv cert_view => cert_view == view_number
  | .proposal, .quorumProposalRecv proposal_view => proposal_view + 1 == view_number
  | .payloadAndMetadata, .sendPayloadCommitmentAndMetadata view => view == view_number
  | .vidShare, .vidDisperseSend share_view => share_view == view_number
  | _, _ => false

/-- An `EventDependency` completes once some observed event (the seeding event
included) satisfies its predicate. -/
def depCompleted (events : List ProposalEvent) (d : ProposalDependency)
    (view_number : Nat) : Bool :=
  events.any (create_event_dependency d view_number)

/-- The completion condition of the dependency graph built by
`create_and_complete_dependencies` (mod.rs, lines 169-263): the payload and
VID primary dependencies, conjoined with a disjunction of the timeout
dependency, the view-sync dependency, and — for views above 1 — the QC
dependency together with the proposal dependency (for view 1 the QC
dependency alone). -/
def create_and_complete_dependencies (events : List ProposalEvent)
    (view_number : Nat) : Bool :=
  (depCompleted events .payloadAndMetadata view_number
      && depCompleted events .vidShare view_number)
    && (depCompleted events .timeoutCert view_number
      || depCompleted events .viewSyncCert view_number
      || (if 1 < view_number then
            depCompleted events .qc view_number
              && depCompleted events .proposal view_number
          else
            depCompleted events .qc view_number))

/-- The completion condition claim C1 asserts, stated from its words: payload
and VID share, together with at least one of high-QC for `V-1`, timeout
certificate for `V-1`, or view-sync finalize certificate for `V`.  (For
comparison with `create_and_complete_dependencies`.) -/
def claimedDependencyCompletion (events : List ProposalEvent) (view_number : Nat) : Bool :=
  (depCompleted events .payloadAndMetadata view_number
      && depCompleted events .vidShare view_number)
    && (depCompleted events .qc view_number
      || depCompleted events .timeoutCert view_number
      || depCompleted events .viewSyncCert view_number)

/-- The view-change-evidence selection of
`ProposalDependencyHandle::handle_dep_result` (dependency_handle.rs, lines
264-268): a view-sync finalize certificate wins over a timeout certificate. -/
def handle_dep_result_proposal_cert
    (view_sync_finalize_cert : Option ViewSyncFinalizeCertificate2)
    (timeout_certificate : Option TimeoutCertificate) : Option ViewChangeEvidence :=
  match view_sync_finalize_cert with
  | some view_sync_cert => some (.viewSync view_sync_cert)
  | none => timeout_certificate.map .timeout

/-- `ProposalDependencyHandle::publish_proposal` (dependency_handle.rs, lines
94-175), as the construction of the broadcast `QuorumProposal`.  The parent
leaf and state acquisition (`parent_leaf_and_state`, from a source file
outside the inspected subset) and the block-header construction are
abstracted to opaque inputs; the evidence filter, the block-view check and
the composed proposal follow the source. -/
def publish_proposal (view_number : Nat) (high_qc : QuorumCertificate)
    (commitment_block_view : Nat) (block_header : Nat)
    (view_change_evidence : Option ViewChangeEvidence) : Except String QuorumProposal :=
  let proposal_certificate :=
    view_change_evidence.filter (fun cert => cert.is_valid_for_view view_number)
  if commitment_block_view = view_number then
    .ok { block_header := block_header
          view_number := view_number
          justify_qc := high_qc
          proposal_certificate := proposal_certificate
          upgrade_certificate := none }
  else
    .error "Cannot propose because our VID payload commitment and metadata is for an older view."

/-- The fields of `QuorumProposalTaskState` (mod.rs, lines 40-91) that govern
proposal creation: the latest proposed view and the table of in-progress
dependency tasks.  A table entry `some true` is a spawned task whose
completion handler has not run; `some false` is one whose single-shot
completion handler has already run. -/
structure QuorumProposalTaskState where
  latest_proposed_view : Nat
  proposal_dependencies : Nat → Option Bool

/-- The operations on the task state: `create_dependency_task_if_new` and
`update_latest_proposed_view`, plus the completion (and publication) of a
spawned dependency task. -/
inductive QPOp where
  | createDependencyTaskIfNew (view : Nat)
  | updateLatestProposedView (view : Nat)
  | dependencyTaskCompletes (view : Nat)
deriving DecidableEq, Repr

/-- One step of the quorum proposal task.  `leader v` says whether this node
is the quorum leader for view `v` (`quorum_membership.leader(v) == public_key`).
`createDependencyTaskIfNew` follows mod.rs lines 271-317 (leader gate,
monotone gate, no duplicate task); `updateLatestProposedView` follows mod.rs
lines 321-341 (only strictly larger views accepted; dependency tasks for the
views passed over are cancelled and removed); `dependencyTaskCompletes v`
models a spawned task for `v` running its completion handler
(`handle_dep_result` consumes the handle, so it runs at most once) and
publishing its proposal.  Returns the new state, whether a dependency task
was created, and whether a proposal was published. -/
def qpStep (leader : Nat → Bool) (st : QuorumProposalTaskState) :
    QPOp → QuorumProposalTaskState × Bool × Bool
  | .createDependencyTaskIfNew view =>
    if ¬ leader view then
      (st, false, false)
    else if view ≤ st.latest_proposed_view then
      (st, false, false)
    else if (st.proposal_dependencies view).isSome then
      (st, false, false)
    else
      ({ st with proposal_dependencies :=
           fun v => if v = view then some true else st.proposal_dependencies v },
       true, false)
  | .updateLatestProposedView view =>
    if st.latest_proposed_view < view then
      ({ latest_proposed_view := view,
         proposal_dependencies := fun v =>
           if st.latest_proposed_view < v ∧ v ≤ view then none
           else st.proposal_dependencies v },
       false, false)
    else
      (st, false, false)
  | .dependencyTaskCompletes view =>
    match st.proposal_dependencies view with
    | some true =>
      ({ st with proposal_dependencies :=
           fun v => if v = view then some false else st.proposal_dependencies v },
       false, true)
    | _ => (st, false, false)

/-- The view an operation concerns. -/
def QPOp.view : QPOp → Nat
  | .createDependencyTaskIfNew v => v
  | .updateLatestProposedView v => v
  | .dependencyTaskCompletes v => v

/-- Run a sequence of operations. -/
def qpExec (leader : Nat → Bool) (st : QuorumProposalTaskState) :
    List QPOp → QuorumProposalTaskState
  | [] => st
  | op :: ops => qpExec leader (qpStep leader st op).1 ops

/-- How many dependency tasks a run creates for a given view. -/
def qpCreatedCount (leader : Nat → Bool) (st : QuorumProposalTaskState)
    (ops : List QPOp) (view : Nat) : Nat :=
  match ops with
  | [] => 0
  | op :: ops =>
    let r := qpStep leader st op
    (if r.2.1 = true ∧ op.view = view then 1 else 0)
      + qpCreatedCount leader r.1 ops view

/-- How many proposals a run publishes for a given view. -/
def qpPublishedCount (leader : Nat → Bool) (st : QuorumProposalTaskState)
    (ops : List QPOp) (view : Nat) : Nat :=
  match ops with
  | [] => 0
  | op :: ops =>
    let r := qpStep leader st op
    (if r.2.2 = true ∧ op.view = view then 1 else 0)
      + qpPublishedCount leader r.1 ops view

/-- The task state at node start: no view proposed for yet (beyond the
initial `latest_proposed_view`), no dependency tasks. -/
def qpInit (latest : Nat) : QuorumProposalTaskState :=
  ⟨latest, fun _ => none⟩

/-! ## Concrete instances used by witnesses and counterexamples -/

/-- A concrete environment: the hash is the identity, signatures always
validate, leaf commits are the leaf's view, only key 0 has quorum stake, and
the DA leader of every view is key 0. -/
def exEnv : Env where
  sha256 := fun bs => bs
  validate := fun _ _ _ => true
  bincodeKind := fun _ => []
  leafCommit := fun l => l.view_number
  fromHeader := fun h => h
  daLeader := fun _ => 0
  quorumHasStake := fun k => k == 0
  members := [0]
  computeShare := fun _ _ => 0

/-- An empty consensus state. -/
def exConsensusEmpty : Consensus :=
  ⟨0, 0, ⟨0, 0⟩, [], [], [], [], []⟩

/-- An empty storage. -/
def exStorageEmpty : Storage :=
  ⟨0, none⟩

/-- A concrete VID data request. -/
def exRequest : DataRequest :=
  ⟨.vid 1 1, 1, 0⟩

/-- A consensus state whose locked view is 5 (for the liveness-failure
witness). -/
def exConsensusLocked : Consensus :=
  ⟨0, 5, ⟨0, 0⟩, [], [], [], [], []⟩

/-- A quorum proposal for view 3 whose justify QC certifies leaf commit 9 at
view 2. -/
def exProposalOrphan : Proposal QuorumProposal :=
  ⟨⟨7, 3, ⟨9, 2⟩, none, none⟩, 0⟩

/-- External checks that all pass, with no fetched parent. -/
def exChecksPass : RecvChecks :=
  ⟨true, true, none, true⟩

/-- A consensus state that has the parent leaf for view 2 (commit 2) in
`saved_leaves` but no `Leaf` entry for view 2 in the validated state map. -/
def exConsensusLeafNoState : Consensus :=
  ⟨2, 0, ⟨0, 1⟩, [], [(2, ⟨2, 1, 5⟩)], [], [], []⟩

/-- A quorum proposal for view 3 whose justify QC certifies leaf commit 2 at
view 2 (the leaf present in `exConsensusLeafNoState`). -/
def exProposalKnownParent : Proposal QuorumProposal :=
  ⟨⟨7, 3, ⟨2, 2⟩, none, none⟩, 0⟩

/-- The events of C1's counterexample: payload commitment and VID share for
view 2, and a high-QC update for view 1 — but no quorum proposal received for
view 1, no timeout certificate and no view-sync certificate. -/
def exDependencyEvents : List ProposalEvent :=
  [.sendPayloadCommitmentAndMetadata 2, .vidDisperseSend 2, .updateHighQc 1]

end HotShot

namespace HotShot

/-! # Theorems -/

/-! ## DA task -/

/-- C3: on `DaProposalRecv(p, sender)`, the DA task emits
`DaProposalValidated(p, sender)` exactly when the proposal's view is at least
`cur_view - 1` or `cur_view` is the genesis view, no payload is saved for the
view, the sender is the DA leader for the view, and the sender's signature
validates over the SHA256 digest of the encoded transactions. -/
theorem da_proposal_recv_validated_iff (env : Env) (cur_view : Nat) (consensus : Consensus)
    (proposal : Proposal DaProposal) (sender : Nat) :
    DaTaskState.handleDaProposalRecv env cur_view consensus proposal sender
        = some (proposal, sender) ↔
      ((cur_view = 0 ∨ cur_view - 1 ≤ proposal.data.view_number)
        ∧ lookupA proposal.data.view_number consensus.saved_payloads = none
        ∧ sender = env.daLeader proposal.data.view_number
        ∧ env.validate sender proposal.signature
            (env.sha256 proposal.data.encoded_transactions) = true) := by
  unfold DaTaskState.handleDaProposalRecv
  dsimp only
  split_ifs with h1 h2 h3 h4
  · simp only [reduceCtorEq, false_iff]
    intro hc
    obtain ⟨hz1, hz2⟩ := h1
    rcases hc.1 with hz | hle
    · exact hz1 hz
    · omega
  · simp only [reduceCtorEq, false_iff]
    intro hc
    rw [hc.2.1] at h2
    simp at h2
  · simp only [reduceCtorEq, false_iff]
    intro hc
    exact h3 hc.2.2.1.symm
  · constructor
    · intro _
      have hl : env.daLeader proposal.data.view_number = sender := not_ne_iff.mp h3
      refine ⟨?_, ?_, hl.symm, ?_⟩
      · by_cases hz : cur_view = 0
        · exact Or.inl hz
        · right
          by_contra hlt
          exact h1 ⟨hz, by omega⟩
      · cases hlk : lookupA proposal.data.view_number consensus.saved_payloads with
        | none => rfl
        | some _ => rw [hlk] at h2; simp at h2
      · rw [hl] at h4
        exact h4
    · intro _
      rfl
  · simp only [reduceCtorEq, false_iff]
    intro hc
    apply h4
    have hcv := hc.2.2.2
    rw [hc.2.2.1] at hcv
    exact hcv

/-! ## Response task -/

/-- C5: a `DataRequest` from a sender without quorum stake, or with a
signature that does not validate over the SHA256 digest of the bincode
encoding of the request kind, is answered with `Denied` and leaves the shared
`Consensus` state unchanged. -/
theorem denied_data_request_leaves_consensus_unchanged (env : Env)
    (nrs : NetworkResponseState) (st : Consensus) (req : Message)
    (request : DataRequest)
    (hkind : req.kind = .data (.requestData request))
    (hbad : NetworkResponseState.valid_sender env req.sender = false
      ∨ valid_signature env request req.sender = false) :
    NetworkResponseState.handle_message env nrs st req
      = (st, some (nrs.make_msg .denied)) := by
  unfold NetworkResponseState.handle_message
  rw [hkind]
  dsimp only
  have hcond : ¬ NetworkResponseState.valid_sender env req.sender
      ∨ ¬ valid_signature env request req.sender := by
    rcases hbad with hb | hb
    · exact Or.inl (by rw [hb]; exact Bool.false_ne_true)
    · exact Or.inr (by rw [hb]; exact Bool.false_ne_true)
  rw [if_pos hcond]

/-- Witness for C5: key 1 has no quorum stake in `exEnv`, so its VID request
is denied and the empty consensus state is returned unchanged. -/
theorem denied_data_request_witness :
    NetworkResponseState.handle_message exEnv ⟨0⟩ exConsensusEmpty
        ⟨1, .data (.requestData exRequest)⟩
      = (exConsensusEmpty, some (NetworkResponseState.make_msg ⟨0⟩ .denied)) :=
  denied_data_request_leaves_consensus_unchanged exEnv ⟨0⟩ exConsensusEmpty
    ⟨1, .data (.requestData exRequest)⟩ exRequest rfl (Or.inl rfl)

/-! ## Request task -/

/-- The request loop issues one request per observed state until the first
state satisfying `cancel_vid`. -/
theorem do_vid_eq_takeWhile (view : Nat) (states : List RequesterObservation) :
    do_vid view states
      = (states.takeWhile (fun obs => !cancel_vid obs view)).length := by
  induction states with
  | nil => rfl
  | cons obs rest ih =>
    unfold do_vid
    by_cases hc : cancel_vid obs view
    · rw [if_pos hc]
      simp [List.takeWhile_cons, hc]
    · rw [if_neg hc]
      simp only [Bool.not_eq_true] at hc
      simp [List.takeWhile_cons, hc, ih]

/-- C8: the spawned VID request loop issues requests exactly while the
shutdown flag is unset, `vid_shares` has no entry for the requested view, and
`cur_view` has not passed the view — it stops at the first observed state
where the shutdown flag is set, or `vid_shares` contains the view, or
`cur_view` is strictly greater than the view; and the first request is
preceded by the configured delay exactly when the primary network is up. -/
theorem vid_request_loop_stop_and_delay (is_primary_down : Bool) (view key : Nat)
    (states : List RequesterObservation) :
    (DelayedRequester.run is_primary_down (.vid view key) states).1 = !is_primary_down
    ∧ (DelayedRequester.run is_primary_down (.vid view key) states).2
        = (states.takeWhile (fun obs =>
            !(obs.shutdown_flag
              || (lookupA view obs.consensus.vid_shares).isSome
              || decide (view < obs.consensus.cur_view)))).length := by
  refine ⟨rfl, ?_⟩
  have h := do_vid_eq_takeWhile view states
  simpa [DelayedRequester.run, cancel_vid] using h

end HotShot

namespace HotShot

/-! ## Supporting lemmas -/

/-- Any version `versionFor` returns is Base or Upgrade. -/
theorem versionFor_ok_base_or_upgrade (cert : Option UpgradeCertificate) (view : Nat)
    (v : Version) (h : VersionedMessage.versionFor cert view = .ok v) :
    v = baseVersion ∨ v = upgradeVersion := by
  cases cert with
  | none =>
    simp only [VersionedMessage.versionFor, Except.ok.injEq] at h
    exact Or.inl h.symm
  | some cert =>
    simp only [VersionedMessage.versionFor] at h
    split at h
    · exact Or.inr (Except.ok.injEq _ _ ▸ h).symm
    · split at h
      · exact absurd h (by simp)
      · exact Or.inl (Except.ok.injEq _ _ ▸ h).symm

/-- When the specification mandates a version for a view, `versionFor`
computes exactly that version. -/
theorem versionFor_eq_mandated (cert : Option UpgradeCertificate) (view : Nat)
    (mv : Version) (h : mandatedVersionSpec cert view = some mv) :
    VersionedMessage.versionFor cert view = .ok mv := by
  cases cert with
  | none =>
    simp only [mandatedVersionSpec, Option.some.injEq] at h
    subst h
    rfl
  | some cert =>
    simp only [mandatedVersionSpec] at h
    by_cases hlt : view < cert.newVersionFirstView
    · rw [if_pos hlt] at h
      simp only [Option.some.injEq] at h
      subst h
      simp only [VersionedMessage.versionFor]
      rw [if_neg (fun hh => absurd hh.1 (by omega)),
          if_neg (fun hh => absurd hh.1 (by omega))]
    · rw [if_neg hlt] at h
      by_cases hup : cert.newVersion = upgradeVersion
      · rw [if_pos hup] at h
        simp only [Option.some.injEq] at h
        subst h
        simp only [VersionedMessage.versionFor]
        rw [if_pos ⟨by omega, hup⟩]
      · rw [if_neg hup] at h
        exact absurd h (by simp)

end HotShot

namespace HotShot

/-! ## Claim theorems: wire messages -/

/-- C2: for every message `m` and optional decided upgrade certificate for
which serialization succeeds, deserializing the produced bytes with the same
certificate returns `m`; and deserialization fails whenever the 2-byte version
prefix differs from the version the certificate mandates for the decoded
message's view (Base with no certificate or below `new_version_first_view`,
Upgrade at or after `new_version_first_view` when the certificate's
`new_version` is the Upgrade version). -/
theorem serialize_deserialize_roundtrip_and_version_mismatch
    (m : Message) (cert : Option UpgradeCertificate) (w : VersionedBytes) (mv : Version) :
    (VersionedMessage.serialize m cert = .ok w →
      VersionedMessage.deserialize w cert = .ok m)
    ∧ (mandatedVersionSpec cert w.body.view_number = some mv → w.version ≠ mv →
      (VersionedMessage.deserialize w cert).isOk = false) := by
  constructor
  · intro h
    unfold VersionedMessage.serialize at h
    cases hv : VersionedMessage.versionFor cert m.view_number with
    | error e => rw [hv] at h; exact absurd h (by simp)
    | ok v =>
      rw [hv] at h
      have hbu : v = baseVersion ∨ v = upgradeVersion :=
        versionFor_ok_base_or_upgrade cert m.view_number v hv
      dsimp only at h
      rw [if_pos hbu] at h
      simp only [Except.ok.injEq] at h
      subst h
      unfold VersionedMessage.deserialize
      dsimp only
      rw [if_pos hbu]
      dsimp only
      rw [hv]
      dsimp only
      rw [if_pos rfl]
  · intro hman hne
    unfold VersionedMessage.deserialize
    dsimp only
    by_cases hdec : (w.version = baseVersion ∨ w.version = upgradeVersion)
    · rw [if_pos hdec]
      dsimp only
      rw [versionFor_eq_mandated cert w.body.view_number mv hman]
      dsimp only
      rw [if_neg hne]
      rfl
    · rw [if_neg hdec]
      rfl

/-- Witness for C2 at a concrete input: the round trip of a `NotFound` data
response message under no upgrade certificate, and rejection of the same bytes
with an Upgrade prefix. -/
theorem serialize_deserialize_roundtrip_witness :
    VersionedMessage.deserialize ⟨baseVersion, exampleMessage⟩ none = .ok exampleMessage ∧
    (VersionedMessage.deserialize ⟨upgradeVersion, exampleMessage⟩ none).isOk = false := by
  constructor
  · exact (serialize_deserialize_roundtrip_and_version_mismatch exampleMessage none
      ⟨baseVersion, exampleMessage⟩ baseVersion).1 rfl
  · exact (serialize_deserialize_roundtrip_and_version_mismatch exampleMessage none
      ⟨upgradeVersion, exampleMessage⟩ baseVersion).2 rfl (by decide)

/-- C10: a `DataResponse` carrying `NotFound` or `Denied` reports view number
1 regardless of the request it answers; one carrying `Found(m)` reports `m`'s
view number. -/
theorem data_response_view_number (sender : Nat) (m : SequencingMessage) :
    (Message.mk sender (.data (.dataResponse (.found m)))).view_number = m.view_number
    ∧ (Message.mk sender (.data (.dataResponse .notFound))).view_number = 1
    ∧ (Message.mk sender (.data (.dataResponse .denied))).view_number = 1 :=
  ⟨rfl, rfl, rfl⟩

end HotShot

namespace HotShot

/-- The QC dependency is completed exactly by an `UpdateHighQc` whose QC view
precedes the target view. -/
theorem depCompleted_qc_iff (events : List ProposalEvent) (V : Nat) :
    depCompleted events .qc V = true
      ↔ ∃ qv, ProposalEvent.updateHighQc qv ∈ events ∧ qv + 1 = V := by
  simp only [depCompleted, List.any_eq_true]
  constructor
  · rintro ⟨e, he, hp⟩
    cases e <;> simp [create_event_dependency] at hp
    exact ⟨_, he, hp⟩
  · rintro ⟨qv, hm, hv⟩
    exact ⟨.updateHighQc qv, hm, by simp [create_event_dependency, hv]⟩

/-- The timeout dependency is completed exactly by a timeout certificate for
the preceding view. -/
theorem depCompleted_timeout_iff (events : List ProposalEvent) (V : Nat) :
    depCompleted events .timeoutCert V = true
      ↔ ∃ tv, ProposalEvent.qcFormedTimeout tv ∈ events ∧ tv + 1 = V := by
  simp only [depCompleted, List.any_eq_true]
  constructor
  · rintro ⟨e, he, hp⟩
    cases e <;> simp [create_event_dependency] at hp
    exact ⟨_, he, hp⟩
  · rintro ⟨tv, hm, hv⟩
    exact ⟨.qcFormedTimeout tv, hm, by simp [create_event_dependency, hv]⟩

/-- The view-sync dependency is completed exactly by a view-sync finalize
certificate for the target view itself. -/
theorem depCompleted_viewSync_iff (events : List ProposalEvent) (V : Nat) :
    depCompleted events .viewSyncCert V = true
      ↔ ProposalEvent.viewSyncFinalizeCertificate2Recv V ∈ events := by
  simp only [depCompleted, List.any_eq_true]
  constructor
  · rintro ⟨e, he, hp⟩
    cases e <;> simp [create_event_dependency] at hp
    rwa [hp] at he
  · intro hm
    exact ⟨.viewSyncFinalizeCertificate2Recv V, hm, by simp [create_event_dependency]⟩

/-- The proposal dependency is completed exactly by a received quorum
proposal for the preceding view. -/
theorem depCompleted_proposal_iff (events : List ProposalEvent) (V : Nat) :
    depCompleted events .proposal V = true
      ↔ ∃ pv, ProposalEvent.quorumProposalRecv pv ∈ events ∧ pv + 1 = V := by
  simp only [depCompleted, List.any_eq_true]
  constructor
  · rintro ⟨e, he, hp⟩
    cases e <;> simp [create_event_dependency] at hp
    exact ⟨_, he, hp⟩
  · rintro ⟨pv, hm, hv⟩
    exact ⟨.quorumProposalRecv pv, hm, by simp [create_event_dependency, hv]⟩

/-- The payload dependency is completed exactly by a payload commitment and
metadata event for the target view. -/
theorem depCompleted_payload_iff (events : List ProposalEvent) (V : Nat) :
    depCompleted events .payloadAndMetadata V = true
      ↔ ProposalEvent.sendPayloadCommitmentAndMetadata V ∈ events := by
  simp only [depCompleted, List.any_eq_true]
  constructor
  · rintro ⟨e, he, hp⟩
    cases e <;> simp [create_event_dependency] at hp
    rwa [hp] at he
  · intro hm
    exact ⟨.sendPayloadCommitmentAndMetadata V, hm, by simp [create_event_dependency]⟩

/-- The VID dependency is completed exactly by a VID disperse send for the
target view. -/
theorem depCompleted_vid_iff (events : List ProposalEvent) (V : Nat) :
    depCompleted events .vidShare V = true
      ↔ ProposalEvent.vidDisperseSend V ∈ events := by
  simp only [depCompleted, List.any_eq_true]
  constructor
  · rintro ⟨e, he, hp⟩
    cases e <;> simp [create_event_dependency] at hp
    rwa [hp] at he
  · intro hm
    exact ⟨.vidDisperseSend V, hm, by simp [create_event_dependency]⟩

end HotShot

namespace HotShot

/-- Counterexample to C1 as stated: with a payload commitment and a VID share
for view 2 and an `UpdateHighQc` for view 1 observed — but no quorum proposal
received for view 1 — the claim's condition holds, yet the dependency built
by `create_and_complete_dependencies` is not complete: for views above 1 the
QC branch additionally requires the `QuorumProposalRecv` dependency. -/
theorem dependency_completion_counterexample :
    claimedDependencyCompletion exDependencyEvents 2 = true
    ∧ create_and_complete_dependencies exDependencyEvents 2 = false :=
  ⟨rfl, rfl⟩

/-- C1 (amended): the proposal dependency for leader view `V` completes
exactly when a payload-commitment-and-metadata event for `V` and a
VID-disperse-send event for `V` have been observed, together with at least
one of: a timeout certificate for `V-1`; a view-sync finalize certificate for
`V`; or an `UpdateHighQc` carrying a QC for `V-1` — the latter joined, for
views `V > 1`, by a received quorum proposal for `V-1`.  Upon completion the
published proposal carries view `V`. -/
theorem dependency_completion_amended (events : List ProposalEvent) (V : Nat) :
    (create_and_complete_dependencies events V = true ↔
      ((ProposalEvent.sendPayloadCommitmentAndMetadata V ∈ events
        ∧ ProposalEvent.vidDisperseSend V ∈ events)
       ∧ ((∃ tv, ProposalEvent.qcFormedTimeout tv ∈ events ∧ tv + 1 = V)
          ∨ ProposalEvent.viewSyncFinalizeCertificate2Recv V ∈ events
          ∨ ((∃ qv, ProposalEvent.updateHighQc qv ∈ events ∧ qv + 1 = V)
            ∧ (1 < V → ∃ pv, ProposalEvent.quorumProposalRecv pv ∈ events ∧ pv + 1 = V)))))
    ∧ (∀ (hq : QuorumCertificate) (bv bh : Nat) (ev : Option ViewChangeEvidence)
        (p : QuorumProposal),
        publish_proposal V hq bv bh ev = .ok p → p.view_number = V) := by
  constructor
  · unfold create_and_complete_dependencies
    simp only [Bool.and_eq_true, Bool.or_eq_true]
    rw [depCompleted_payload_iff, depCompleted_vid_iff, depCompleted_timeout_iff,
        depCompleted_viewSync_iff]
    by_cases hv : 1 < V
    · rw [if_pos hv]
      simp only [Bool.and_eq_true]
      rw [depCompleted_qc_iff, depCompleted_proposal_iff]
      constructor
      · rintro ⟨hpv, hsec⟩
        refine ⟨hpv, ?_⟩
        rcases hsec with (h | h) | ⟨hqc, hpr⟩
        · exact Or.inl h
        · exact Or.inr (Or.inl h)
        · exact Or.inr (Or.inr ⟨hqc, fun _ => hpr⟩)
      · rintro ⟨hpv, hsec⟩
        refine ⟨hpv, ?_⟩
        rcases hsec with h | h | ⟨hqc, hpr⟩
        · exact Or.inl (Or.inl h)
        · exact Or.inl (Or.inr h)
        · exact Or.inr ⟨hqc, hpr hv⟩
    · rw [if_neg hv]
      rw [depCompleted_qc_iff]
      constructor
      · rintro ⟨hpv, hsec⟩
        refine ⟨hpv, ?_⟩
        rcases hsec with (h | h) | h
        · exact Or.inl h
        · exact Or.inr (Or.inl h)
        · exact Or.inr (Or.inr ⟨h, fun hlt => absurd hlt hv⟩)
      · rintro ⟨hpv, hsec⟩
        refine ⟨hpv, ?_⟩
        rcases hsec with h | h | ⟨hqc, _⟩
        · exact Or.inl (Or.inl h)
        · exact Or.inl (Or.inr h)
        · exact Or.inr hqc
  · intro hq bv bh ev p hp
    unfold publish_proposal at hp
    split_ifs at hp with hbv
    simp only [Except.ok.injEq] at hp
    rw [← hp]

/-- Witness for C1 (amended): the dependency for view 2 completes once the
payload, VID share, high QC for view 1 and received proposal for view 1 are
all observed, and the concretely published proposal carries view 2. -/
theorem dependency_completion_amended_witness :
    create_and_complete_dependencies
        [ProposalEvent.sendPayloadCommitmentAndMetadata 2,
         ProposalEvent.vidDisperseSend 2, ProposalEvent.updateHighQc 1,
         ProposalEvent.quorumProposalRecv 1] 2 = true
    ∧ ({ block_header := 0, view_number := 2, justify_qc := ⟨0, 1⟩,
         proposal_certificate := none,
         upgrade_certificate := none } : QuorumProposal).view_number = 2 := by
  constructor
  · exact (dependency_completion_amended
      [ProposalEvent.sendPayloadCommitmentAndMetadata 2,
       ProposalEvent.vidDisperseSend 2, ProposalEvent.updateHighQc 1,
       ProposalEvent.quorumProposalRecv 1] 2).1.mpr
      ⟨⟨by simp, by simp⟩,
        Or.inr (Or.inr ⟨⟨1, by simp, rfl⟩, fun _ => ⟨1, by simp, rfl⟩⟩)⟩
  · exact (dependency_completion_amended [] 2).2 ⟨0, 1⟩ 2 0 none _ rfl

/-- C7: when the completed dependency output carries both a view-sync
finalize certificate (for the proposal's view) and a timeout certificate (for
the preceding view), the published proposal carries the view-sync
certificate; the timeout certificate is attached only when no view-sync
certificate is present, and no certificate is attached when both are
absent. -/
theorem proposal_certificate_precedence (V : Nat)
    (ovs : Option ViewSyncFinalizeCertificate2) (otc : Option TimeoutCertificate)
    (hvs : ∀ vs ∈ ovs, vs.view_number = V) (htc : ∀ tc ∈ otc, tc.view_number + 1 = V)
    (hq : QuorumCertificate) (bh : Nat) :
    (publish_proposal V hq V bh (handle_dep_result_proposal_cert ovs otc)).map
        QuorumProposal.proposal_certificate
      = .ok (match ovs with
             | some vs => some (.viewSync vs)
             | none => otc.map .timeout) := by
  cases ovs with
  | some vs =>
    have h := hvs vs (by simp)
    unfold handle_dep_result_proposal_cert publish_proposal
    rw [if_pos rfl]
    simp [ViewChangeEvidence.is_valid_for_view, Option.filter, Except.map, h]
  | none =>
    cases otc with
    | none =>
      unfold handle_dep_result_proposal_cert publish_proposal
      rw [if_pos rfl]
      simp [Option.filter, Except.map]
    | some tc =>
      have h := htc tc (by simp)
      unfold handle_dep_result_proposal_cert publish_proposal
      rw [if_pos rfl]
      simp [ViewChangeEvidence.is_valid_for_view, Option.filter, Except.map, h]

/-- Witness for C7 at concrete certificates for view 2: both present, only a
timeout, and neither. -/
theorem proposal_certificate_precedence_witness :
    (publish_proposal 2 ⟨0, 1⟩ 2 0
        (handle_dep_result_proposal_cert (some ⟨2⟩) (some ⟨1⟩))).map
        QuorumProposal.proposal_certificate = .ok (some (.viewSync ⟨2⟩))
    ∧ (publish_proposal 2 ⟨0, 1⟩ 2 0
        (handle_dep_result_proposal_cert none (some ⟨1⟩))).map
        QuorumProposal.proposal_certificate = .ok (some (.timeout ⟨1⟩))
    ∧ (publish_proposal 2 ⟨0, 1⟩ 2 0
        (handle_dep_result_proposal_cert none none)).map
        QuorumProposal.proposal_certificate = .ok none := by
  refine ⟨?_, ?_, ?_⟩
  · exact proposal_certificate_precedence 2 (some ⟨2⟩) (some ⟨1⟩)
      (by intro vs h; simp only [Option.mem_def, Option.some.injEq] at h; rw [← h])
      (by intro tc h; simp only [Option.mem_def, Option.some.injEq] at h; rw [← h]) ⟨0, 1⟩ 0
  · exact proposal_certificate_precedence 2 none (some ⟨1⟩)
      (by intro vs h; simp at h)
      (by intro tc h; simp only [Option.mem_def, Option.some.injEq] at h; rw [← h]) ⟨0, 1⟩ 0
  · exact proposal_certificate_precedence 2 none none
      (by intro vs h; simp at h) (by intro tc h; simp at h) ⟨0, 1⟩ 0

end HotShot

namespace HotShot

/-- Inserting then looking up the same key yields the inserted value. -/
theorem lookupA_insertA_self {α : Type} (k : Nat) (v : α) (l : List (Nat × α)) :
    lookupA k (insertA k v l) = some v := by
  simp [insertA, lookupA]

/-- Recording a `Leaf` entry in the validated state map always succeeds. -/
theorem update_validated_state_map_leaf (st : Consensus) (view c s : Nat) (d : Option Nat) :
    st.update_validated_state_map view (.leaf c s d)
      = .ok { st with
          validated_state_map := insertA view (.leaf c s d) st.validated_state_map } := by
  unfold Consensus.update_validated_state_map
  cases h : lookupA view st.validated_state_map with
  | none => rfl
  | some e => cases e <;> rfl

/-- The high-QC update (with its swallowed stale error) only replaces the
high QC field, and only with a strictly higher view. -/
theorem update_high_qc_fields (st : Consensus) (qc : QuorumCertificate) :
    (match st.update_high_qc qc with | .ok s => s | .error _ => st)
      = { st with high_qc :=
            if st.high_qc.view_number < qc.view_number then qc else st.high_qc } := by
  unfold Consensus.update_high_qc
  by_cases h : st.high_qc.view_number < qc.view_number
  · rw [if_pos h, if_pos h]
  · rw [if_neg h, if_neg h]

/-- All the effects of `validate_proposal_liveness` at once: the recorded
leaf, the recorded `Leaf` map entry, the storage checkpoint, the broadcast,
and the result as a function of the liveness check. -/
theorem validate_proposal_liveness_spec (env : Env) (st : Consensus) (storage : Storage)
    (proposal : Proposal QuorumProposal) :
    validate_proposal_liveness env st storage proposal
      = { result :=
            if st.locked_view < proposal.data.justify_qc.view_number then .ok .liveness
            else .error "Liveness invalid.",
          consensus := { st with
            validated_state_map :=
              insertA proposal.data.view_number
                (.leaf (env.leafCommit (Leaf.from_quorum_proposal proposal.data))
                  (env.fromHeader proposal.data.block_header) none)
                st.validated_state_map,
            saved_leaves :=
              insertA (env.leafCommit (Leaf.from_quorum_proposal proposal.data))
                (Leaf.from_quorum_proposal proposal.data) st.saved_leaves },
          storage := { storage with
            undecided_state := some
              (insertA (env.leafCommit (Leaf.from_quorum_proposal proposal.data))
                 (Leaf.from_quorum_proposal proposal.data) st.saved_leaves,
               insertA proposal.data.view_number
                 (.leaf (env.leafCommit (Leaf.from_quorum_proposal proposal.data))
                   (env.fromHeader proposal.data.block_header) none)
                 st.validated_state_map) },
          broadcasts := [RecvEvent.validatedStateUpdated proposal.data.view_number
            (.leaf (env.leafCommit (Leaf.from_quorum_proposal proposal.data))
              (env.fromHeader proposal.data.block_header) none)] } := by
  unfold validate_proposal_liveness
  dsimp only
  rw [update_validated_state_map_leaf]
  dsimp only [Consensus.update_saved_leaves]
  by_cases h : st.locked_view < proposal.data.justify_qc.view_number
  · rw [if_pos h, if_pos h]
  · rw [if_neg h, if_neg h]

end HotShot

namespace HotShot

/-- With the external checks passing and the parent leaf missing both locally
and from the fetch, `handle_quorum_proposal_recv` reduces to the
liveness-only path run against a state that differs from the input only in
`cur_view` and the high QC. -/
theorem handle_recv_missing_parent (env : Env) (checks : RecvChecks) (st : Consensus)
    (storage : Storage) (proposal : Proposal QuorumProposal)
    (hvc : checks.view_and_certs_ok = true)
    (hqc : checks.justify_qc_valid = true)
    (hlk : lookupA proposal.data.justify_qc.leaf_commit st.saved_leaves = none)
    (hfetch : checks.fetched_parent = none) :
    ∃ (st2 : Consensus) (storage1 : Storage),
      st2.locked_view = st.locked_view
      ∧ st2.saved_leaves = st.saved_leaves
      ∧ st2.validated_state_map = st.validated_state_map
      ∧ (handle_quorum_proposal_recv env checks st storage proposal).result
          = (validate_proposal_liveness env st2 storage1 proposal).result
      ∧ (handle_quorum_proposal_recv env checks st storage proposal).consensus
          = (validate_proposal_liveness env st2 storage1 proposal).consensus
      ∧ (handle_quorum_proposal_recv env checks st storage proposal).storage
          = (validate_proposal_liveness env st2 storage1 proposal).storage
      ∧ ∀ e ∈ (validate_proposal_liveness env st2 storage1 proposal).broadcasts,
          e ∈ (handle_quorum_proposal_recv env checks st storage proposal).broadcasts := by
  unfold handle_quorum_proposal_recv
  dsimp only
  rw [hvc, hqc]
  rw [if_neg (by simp), if_neg (by simp)]
  by_cases hcv : st.cur_view < proposal.data.view_number
  · rw [if_pos hcv]
    dsimp only
    rw [hlk, hfetch]
    dsimp only
    rw [update_high_qc_fields]
    use { st with
          cur_view := proposal.data.view_number
          high_qc := if st.high_qc.view_number < proposal.data.justify_qc.view_number
                     then proposal.data.justify_qc else st.high_qc }
    use (if st.high_qc.view_number < proposal.data.justify_qc.view_number
         then { storage with high_qc_view := proposal.data.justify_qc.view_number }
         else storage)
    refine ⟨rfl, rfl, rfl, rfl, rfl, rfl, ?_⟩
    intro e he
    simp only [List.mem_append]
    exact Or.inr he
  · rw [if_neg hcv]
    dsimp only
    rw [hlk, hfetch]
    dsimp only
    rw [update_high_qc_fields]
    use { st with
          high_qc := if st.high_qc.view_number < proposal.data.justify_qc.view_number
                     then proposal.data.justify_qc else st.high_qc }
    use (if st.high_qc.view_number < proposal.data.justify_qc.view_number
         then { storage with high_qc_view := proposal.data.justify_qc.view_number }
         else storage)
    refine ⟨rfl, rfl, rfl, rfl, rfl, rfl, ?_⟩
    intro e he
    simp only [List.mem_append]
    exact Or.inr he

end HotShot

namespace HotShot

/-- C9: when the liveness check of `validate_proposal_liveness` fails
(`justify_qc.view_number` not above `locked_view`) and an error is returned,
the insertions into `saved_leaves` and the validated state map, the
undecided-state storage checkpoint and the `ValidatedStateUpdated` broadcast
have all already taken effect and are not rolled back. -/
theorem liveness_error_effects_not_rolled_back (env : Env) (st : Consensus)
    (storage : Storage) (proposal : Proposal QuorumProposal)
    (hfail : ¬ st.locked_view < proposal.data.justify_qc.view_number) :
    (validate_proposal_liveness env st storage proposal).result
        = .error "Liveness invalid."
    ∧ lookupA (env.leafCommit (Leaf.from_quorum_proposal proposal.data))
        (validate_proposal_liveness env st storage proposal).consensus.saved_leaves
        = some (Leaf.from_quorum_proposal proposal.data)
    ∧ lookupA proposal.data.view_number
        (validate_proposal_liveness env st storage proposal).consensus.validated_state_map
        = some (.leaf (env.leafCommit (Leaf.from_quorum_proposal proposal.data))
            (env.fromHeader proposal.data.block_header) none)
    ∧ (validate_proposal_liveness env st storage proposal).storage.undecided_state
        = some ((validate_proposal_liveness env st storage proposal).consensus.saved_leaves,
            (validate_proposal_liveness env st storage proposal).consensus.validated_state_map)
    ∧ RecvEvent.validatedStateUpdated proposal.data.view_number
          (.leaf (env.leafCommit (Leaf.from_quorum_proposal proposal.data))
            (env.fromHeader proposal.data.block_header) none)
        ∈ (validate_proposal_liveness env st storage proposal).broadcasts := by
  rw [validate_proposal_liveness_spec]
  refine ⟨?_, ?_, ?_, rfl, ?_⟩
  · dsimp only
    rw [if_neg hfail]
  · exact lookupA_insertA_self _ _ _
  · exact lookupA_insertA_self _ _ _
  · simp

/-- Witness for C9: with `locked_view = 5` and a justify QC at view 2, the
liveness path errors out while its state mutations and broadcast persist. -/
theorem liveness_error_effects_witness :
    (validate_proposal_liveness exEnv exConsensusLocked exStorageEmpty exProposalOrphan).result
        = .error "Liveness invalid."
    ∧ lookupA (exEnv.leafCommit (Leaf.from_quorum_proposal exProposalOrphan.data))
        (validate_proposal_liveness exEnv exConsensusLocked exStorageEmpty
          exProposalOrphan).consensus.saved_leaves
        = some (Leaf.from_quorum_proposal exProposalOrphan.data)
    ∧ lookupA exProposalOrphan.data.view_number
        (validate_proposal_liveness exEnv exConsensusLocked exStorageEmpty
          exProposalOrphan).consensus.validated_state_map
        = some (.leaf (exEnv.leafCommit (Leaf.from_quorum_proposal exProposalOrphan.data))
            (exEnv.fromHeader exProposalOrphan.data.block_header) none)
    ∧ (validate_proposal_liveness exEnv exConsensusLocked exStorageEmpty
          exProposalOrphan).storage.undecided_state
        = some ((validate_proposal_liveness exEnv exConsensusLocked exStorageEmpty
              exProposalOrphan).consensus.saved_leaves,
            (validate_proposal_liveness exEnv exConsensusLocked exStorageEmpty
              exProposalOrphan).consensus.validated_state_map)
    ∧ RecvEvent.validatedStateUpdated exProposalOrphan.data.view_number
          (.leaf (exEnv.leafCommit (Leaf.from_quorum_proposal exProposalOrphan.data))
            (exEnv.fromHeader exProposalOrphan.data.block_header) none)
        ∈ (validate_proposal_liveness exEnv exConsensusLocked exStorageEmpty
            exProposalOrphan).broadcasts :=
  liveness_error_effects_not_rolled_back exEnv exConsensusLocked exStorageEmpty
    exProposalOrphan (by decide)

/-- Counterexample to C4 as stated: `exConsensusLeafNoState` has the parent
leaf (commit 2) in `saved_leaves` but no state for view 2, so the parent
state is not found locally; the claim then demands the liveness path — here,
since `justify_qc.view = 2 > locked_view = 0`, recording the proposed leaf
and returning the `Liveness` grade — but the handler instead bails with
"Parent state not found" and records nothing. -/
theorem missing_parent_state_counterexample :
    (handle_quorum_proposal_recv exEnv exChecksPass exConsensusLeafNoState exStorageEmpty
        exProposalKnownParent).result
      = .error "Parent state not found! Consensus internally inconsistent"
    ∧ (handle_quorum_proposal_recv exEnv exChecksPass exConsensusLeafNoState exStorageEmpty
        exProposalKnownParent).consensus.saved_leaves
      = exConsensusLeafNoState.saved_leaves
    ∧ (handle_quorum_proposal_recv exEnv exChecksPass exConsensusLeafNoState exStorageEmpty
        exProposalKnownParent).consensus.validated_state_map
      = exConsensusLeafNoState.validated_state_map
    ∧ (handle_quorum_proposal_recv exEnv exChecksPass exConsensusLeafNoState exStorageEmpty
        exProposalKnownParent).storage
      = exStorageEmpty
    ∧ (handle_quorum_proposal_recv exEnv exChecksPass exConsensusLeafNoState exStorageEmpty
        exProposalKnownParent).broadcasts
      = [RecvEvent.viewChange 3]
    ∧ exConsensusLeafNoState.locked_view
        < exProposalKnownParent.data.justify_qc.view_number :=
  ⟨rfl, rfl, rfl, rfl, rfl, by decide⟩

/-- C4 (amended): for every `QuorumProposalRecv` that passes the
view/certificate checks and justify-QC validation but whose parent leaf is
not found (locally or by the fetch), the node records the proposed leaf in
`saved_leaves` and a `Leaf` entry for the proposal's view in the validated
state map, checkpoints the undecided state to storage, broadcasts
`ValidatedStateUpdated` for that view, and returns the `Liveness` validity
grade exactly when `justify_qc.view_number` is strictly greater than
`locked_view`, returning an error otherwise. -/
theorem missing_parent_leaf_liveness_path (env : Env) (checks : RecvChecks)
    (st : Consensus) (storage : Storage) (proposal : Proposal QuorumProposal)
    (hvc : checks.view_and_certs_ok = true)
    (hqc : checks.justify_qc_valid = true)
    (hlk : lookupA proposal.data.justify_qc.leaf_commit st.saved_leaves = none)
    (hfetch : checks.fetched_parent = none) :
    ((handle_quorum_proposal_recv env checks st storage proposal).result = .ok .liveness
      ↔ st.locked_view < proposal.data.justify_qc.view_number)
    ∧ (¬ st.locked_view < proposal.data.justify_qc.view_number →
        (handle_quorum_proposal_recv env checks st storage proposal).result
          = .error "Liveness invalid.")
    ∧ lookupA (env.leafCommit (Leaf.from_quorum_proposal proposal.data))
        (handle_quorum_proposal_recv env checks st storage proposal).consensus.saved_leaves
        = some (Leaf.from_quorum_proposal proposal.data)
    ∧ lookupA proposal.data.view_number
        (handle_quorum_proposal_recv env checks st storage proposal).consensus.validated_state_map
        = some (.leaf (env.leafCommit (Leaf.from_quorum_proposal proposal.data))
            (env.fromHeader proposal.data.block_header) none)
    ∧ (handle_quorum_proposal_recv env checks st storage proposal).storage.undecided_state
        = some ((handle_quorum_proposal_recv env checks st storage proposal).consensus.saved_leaves,
            (handle_quorum_proposal_recv env checks st storage proposal).consensus.validated_state_map)
    ∧ RecvEvent.validatedStateUpdated proposal.data.view_number
          (.leaf (env.leafCommit (Leaf.from_quorum_proposal proposal.data))
            (env.fromHeader proposal.data.block_header) none)
        ∈ (handle_quorum_proposal_recv env checks st storage proposal).broadcasts := by
  obtain ⟨st2, storage1, hlock, hsl, hmap, hres, hcons, hstor, hmem⟩ :=
    handle_recv_missing_parent env checks st storage proposal hvc hqc hlk hfetch
  rw [hres, hcons, hstor]
  rw [validate_proposal_liveness_spec]
  dsimp only
  rw [hlock, hsl, hmap]
  refine ⟨?_, ?_, ?_, ?_, rfl, ?_⟩
  · by_cases h : st.locked_view < proposal.data.justify_qc.view_number
    · rw [if_pos h]
      simp [h]
    · rw [if_neg h]
      simp [h]
  · intro h
    rw [if_neg h]
  · exact lookupA_insertA_self _ _ _
  · exact lookupA_insertA_self _ _ _
  · apply hmem
    rw [validate_proposal_liveness_spec]
    simp

/-- Witness for C4 (amended) on an empty consensus state and an orphan
proposal for view 3 whose justify QC (view 2) exceeds the locked view 0: the
liveness grade is returned and the proposed leaf is recorded. -/
theorem missing_parent_leaf_liveness_path_witness :
    (handle_quorum_proposal_recv exEnv exChecksPass exConsensusEmpty exStorageEmpty
        exProposalOrphan).result = .ok .liveness
    ∧ lookupA (exEnv.leafCommit (Leaf.from_quorum_proposal exProposalOrphan.data))
        (handle_quorum_proposal_recv exEnv exChecksPass exConsensusEmpty exStorageEmpty
          exProposalOrphan).consensus.saved_leaves
        = some (Leaf.from_quorum_proposal exProposalOrphan.data) := by
  have h := missing_parent_leaf_liveness_path exEnv exChecksPass exConsensusEmpty
    exStorageEmpty exProposalOrphan rfl rfl rfl rfl
  exact ⟨h.1.mpr (by decide), h.2.2.1⟩

end HotShot

namespace HotShot

/-- A dependency task is created exactly when this node leads the view, the
view is above the latest proposed view, and no task exists for it yet. -/
theorem qpStep_create_iff (leader : Nat → Bool) (st : QuorumProposalTaskState) (v : Nat) :
    (qpStep leader st (.createDependencyTaskIfNew v)).2.1 = true
      ↔ (leader v = true ∧ st.latest_proposed_view < v
          ∧ st.proposal_dependencies v = none) := by
  unfold qpStep
  dsimp only
  split_ifs with h1 h2 h3
  · simp only [reduceCtorEq, false_iff]
    intro hc
    exact absurd hc.2.1 (by omega)
  · simp only [reduceCtorEq, false_iff]
    intro hc
    rw [hc.2.2] at h3
    simp at h3
  · simp only [true_iff]
    refine ⟨h1, by omega, ?_⟩
    cases hd : st.proposal_dependencies v with
    | none => rfl
    | some b => rw [hd] at h3; simp at h3
  · simp only [reduceCtorEq, false_iff]
    intro hc
    exact h1 hc.1

end HotShot

namespace HotShot

/-- One step never decreases the latest proposed view. -/
theorem qpStep_latest_mono (leader : Nat → Bool) (st : QuorumProposalTaskState)
    (op : QPOp) :
    st.latest_proposed_view ≤ (qpStep leader st op).1.latest_proposed_view := by
  cases op with
  | createDependencyTaskIfNew v =>
    unfold qpStep
    dsimp only
    split_ifs <;> exact Nat.le_refl _
  | updateLatestProposedView v =>
    unfold qpStep
    dsimp only
    split_ifs with h
    · exact Nat.le_of_lt h
    · exact Nat.le_refl _
  | dependencyTaskCompletes v =>
    unfold qpStep
    dsimp only
    cases st.proposal_dependencies v with
    | none => exact Nat.le_refl _
    | some b => cases b <;> exact Nat.le_refl _

/-- A run never decreases the latest proposed view. -/
theorem qpExec_latest_mono (leader : Nat → Bool) (st : QuorumProposalTaskState)
    (ops : List QPOp) :
    st.latest_proposed_view ≤ (qpExec leader st ops).latest_proposed_view := by
  induction ops generalizing st with
  | nil => exact Nat.le_refl _
  | cons op ops ih =>
    exact Nat.le_trans (qpStep_latest_mono leader st op) (ih (qpStep leader st op).1)

/-- When a step reports a created task, the operation was a creation whose
gates passed, and the new state holds a live task for that view. -/
theorem qpStep_created_true (leader : Nat → Bool) (st : QuorumProposalTaskState)
    (op : QPOp) (h : (qpStep leader st op).2.1 = true) :
    leader op.view = true ∧ st.latest_proposed_view < op.view
      ∧ st.proposal_dependencies op.view = none
      ∧ (qpStep leader st op).1.proposal_dependencies op.view = some true := by
  cases op with
  | createDependencyTaskIfNew v =>
    have hg := (qpStep_create_iff leader st v).mp h
    refine ⟨hg.1, hg.2.1, hg.2.2, ?_⟩
    unfold qpStep
    dsimp only [QPOp.view]
    rw [if_neg (by simp [hg.1]), if_neg (by omega), if_neg (by simp [hg.2.2])]
    simp
  | updateLatestProposedView v =>
    exfalso
    unfold qpStep at h
    dsimp only at h
    split_ifs at h
  | dependencyTaskCompletes v =>
    exfalso
    unfold qpStep at h
    dsimp only at h
    rcases hd : st.proposal_dependencies v with _ | b
    · rw [hd] at h; simp at h
    · cases b <;> (rw [hd] at h; simp at h)

/-- When a step reports a published proposal, the operation was the
completion of a live task for that view, which the step marks consumed. -/
theorem qpStep_published_true (leader : Nat → Bool) (st : QuorumProposalTaskState)
    (op : QPOp) (h : (qpStep leader st op).2.2 = true) :
    st.proposal_dependencies op.view = some true
      ∧ (qpStep leader st op).1.proposal_dependencies op.view = some false := by
  cases op with
  | createDependencyTaskIfNew v =>
    exfalso
    unfold qpStep at h
    dsimp only at h
    split_ifs at h
  | updateLatestProposedView v =>
    exfalso
    unfold qpStep at h
    dsimp only at h
    split_ifs at h
  | dependencyTaskCompletes v =>
    rcases hd : st.proposal_dependencies v with _ | b
    · exfalso
      unfold qpStep at h
      dsimp only at h
      rw [hd] at h
      simp at h
    · cases b with
      | false =>
        exfalso
        unfold qpStep at h
        dsimp only at h
        rw [hd] at h
        simp at h
      | true =>
        refine ⟨hd, ?_⟩
        unfold qpStep
        dsimp only [QPOp.view]
        rw [hd]
        simp

end HotShot

namespace HotShot

/-- Once a view has a table entry or lies at or below the latest proposed
view, every step preserves that. -/
theorem qpStep_blocked_preserved (leader : Nat → Bool) (st : QuorumProposalTaskState)
    (op : QPOp) (v : Nat)
    (h : (st.proposal_dependencies v).isSome = true ∨ v ≤ st.latest_proposed_view) :
    ((qpStep leader st op).1.proposal_dependencies v).isSome = true
      ∨ v ≤ (qpStep leader st op).1.latest_proposed_view := by
  cases op with
  | createDependencyTaskIfNew w =>
    unfold qpStep
    dsimp only
    split_ifs with h1 h2 h3
    · exact h
    · exact h
    · dsimp only
      by_cases hvw : v = w
      · left
        rw [if_pos hvw]
        rfl
      · rcases h with hs | hle
        · left
          rw [if_neg hvw]
          exact hs
        · exact Or.inr hle
    · exact h
  | updateLatestProposedView w =>
    unfold qpStep
    dsimp only
    split_ifs with h1
    · dsimp only
      rcases h with hs | hle
      · by_cases hrm : st.latest_proposed_view < v ∧ v ≤ w
        · exact Or.inr hrm.2
        · left
          rw [if_neg hrm]
          exact hs
      · exact Or.inr (by omega)
    · exact h
  | dependencyTaskCompletes w =>
    unfold qpStep
    dsimp only
    rcases hd : st.proposal_dependencies w with _ | b
    · exact h
    · cases b with
      | false => exact h
      | true =>
        dsimp only
        rcases h with hs | hle
        · left
          by_cases hvw : v = w
          · rw [if_pos hvw]
            rfl
          · rw [if_neg hvw]
            exact hs
        · exact Or.inr hle

/-- A blocked view is never created for again. -/
theorem qpCreatedCount_blocked (leader : Nat → Bool) (st : QuorumProposalTaskState)
    (ops : List QPOp) (v : Nat)
    (h : (st.proposal_dependencies v).isSome = true ∨ v ≤ st.latest_proposed_view) :
    qpCreatedCount leader st ops v = 0 := by
  induction ops generalizing st with
  | nil => rfl
  | cons op ops ih =>
    unfold qpCreatedCount
    dsimp only
    rw [if_neg, ih (qpStep leader st op).1 (qpStep_blocked_preserved leader st op v h)]
    rintro ⟨hc, hview⟩
    obtain ⟨-, hlt, hnone, -⟩ := qpStep_created_true leader st op hc
    rw [hview] at hlt hnone
    rcases h with hs | hle
    · rw [hnone] at hs
      simp at hs
    · omega

/-- At most one dependency task is ever created for a view. -/
theorem qpCreatedCount_le_one (leader : Nat → Bool) (st : QuorumProposalTaskState)
    (ops : List QPOp) (v : Nat) :
    qpCreatedCount leader st ops v ≤ 1 := by
  induction ops generalizing st with
  | nil => exact Nat.zero_le 1
  | cons op ops ih =>
    unfold qpCreatedCount
    dsimp only
    by_cases hc : (qpStep leader st op).2.1 = true ∧ op.view = v
    · rw [if_pos hc]
      obtain ⟨-, -, -, hsome⟩ := qpStep_created_true leader st op hc.1
      rw [hc.2] at hsome
      rw [qpCreatedCount_blocked leader _ ops v (Or.inl (by rw [hsome]; rfl))]
    · rw [if_neg hc]
      simpa using ih (qpStep leader st op).1

end HotShot

namespace HotShot

/-- A step that neither publishes for `v` nor creates for `v` cannot make a
live task for `v` appear. -/
theorem qpStep_live_preserved (leader : Nat → Bool) (st : QuorumProposalTaskState)
    (op : QPOp) (v : Nat)
    (hp : ¬((qpStep leader st op).2.2 = true ∧ op.view = v))
    (hc : ¬((qpStep leader st op).2.1 = true ∧ op.view = v))
    (h : (qpStep leader st op).1.proposal_dependencies v = some true) :
    st.proposal_dependencies v = some true := by
  cases op with
  | createDependencyTaskIfNew w =>
    by_cases hvw : v = w
    · subst hvw
      by_cases hflag : (qpStep leader st (.createDependencyTaskIfNew v)).2.1 = true
      · exact absurd ⟨hflag, rfl⟩ hc
      · revert h hflag
        unfold qpStep
        dsimp only
        split_ifs with h1 h2 h3
        · exact fun h _ => h
        · exact fun h _ => h
        · intro _ hflag
          exact absurd rfl hflag
        · exact fun h _ => h
    · revert h
      unfold qpStep
      dsimp only
      split_ifs with h1 h2 h3
      · exact fun h => h
      · exact fun h => h
      · dsimp only
        rw [if_neg hvw]
        exact fun h => h
      · exact fun h => h
  | updateLatestProposedView w =>
    revert h
    unfold qpStep
    dsimp only
    split_ifs with h1
    · dsimp only
      by_cases hrm : st.latest_proposed_view < v ∧ v ≤ w
      · rw [if_pos hrm]
        intro h
        exact absurd h (by simp)
      · rw [if_neg hrm]
        exact fun h => h
    · exact fun h => h
  | dependencyTaskCompletes w =>
    revert h
    unfold qpStep
    dsimp only
    rcases hd : st.proposal_dependencies w with _ | b
    · exact fun h => h
    · cases b with
      | false => exact fun h => h
      | true =>
        dsimp only
        by_cases hvw : v = w
        · rw [if_pos hvw]
          intro h
          exact absurd h (by simp)
        · rw [if_neg hvw]
          exact fun h => h

/-- One step: a publication consumes a live-task credit, and only a creation
mints one. -/
theorem qpStep_credit (leader : Nat → Bool) (st : QuorumProposalTaskState)
    (op : QPOp) (v : Nat) :
    (if (qpStep leader st op).2.2 = true ∧ op.view = v then 1 else 0)
      + (if (qpStep leader st op).1.proposal_dependencies v = some true then 1 else 0)
    ≤ (if st.proposal_dependencies v = some true then 1 else 0)
      + (if (qpStep leader st op).2.1 = true ∧ op.view = v then 1 else 0) := by
  by_cases hp : (qpStep leader st op).2.2 = true ∧ op.view = v
  · obtain ⟨hlive, hdead⟩ := qpStep_published_true leader st op hp.1
    rw [hp.2] at hlive hdead
    rw [if_pos hp, if_pos hlive, if_neg (by rw [hdead]; simp)]
    split_ifs <;> omega
  · rw [if_neg hp]
    by_cases hc : (qpStep leader st op).2.1 = true ∧ op.view = v
    · rw [if_pos hc]
      split_ifs <;> omega
    · rw [if_neg hc]
      by_cases hl : (qpStep leader st op).1.proposal_dependencies v = some true
      · rw [if_pos hl, if_pos (qpStep_live_preserved leader st op v hp hc hl)]
      · rw [if_neg hl]
        split_ifs <;> omega

/-- Along any run, publications for a view are bounded by the initial live
task plus the creations for the view. -/
theorem qpPublishedCount_le (leader : Nat → Bool) (st : QuorumProposalTaskState)
    (ops : List QPOp) (v : Nat) :
    qpPublishedCount leader st ops v
      ≤ (if st.proposal_dependencies v = some true then 1 else 0)
        + qpCreatedCount leader st ops v := by
  induction ops generalizing st with
  | nil =>
    unfold qpPublishedCount qpCreatedCount
    omega
  | cons op ops ih =>
    unfold qpPublishedCount qpCreatedCount
    dsimp only
    have hk := qpStep_credit leader st op v
    have hih := ih (qpStep leader st op).1
    omega

/-- C6: the quorum proposal task creates a per-view dependency task only when
this node is the quorum leader for the view and the view is strictly greater
than `latest_proposed_view`; `latest_proposed_view` never decreases, neither
in one step nor along a run; and consequently, along any run from the task's
initial state, at most one proposal is published for each view. -/
theorem quorum_proposal_at_most_one_per_view (leader : Nat → Bool)
    (st : QuorumProposalTaskState) (v latest0 : Nat) (op : QPOp) (ops : List QPOp) :
    ((qpStep leader st (.createDependencyTaskIfNew v)).2.1 = true
      ↔ (leader v = true ∧ st.latest_proposed_view < v
          ∧ st.proposal_dependencies v = none))
    ∧ st.latest_proposed_view ≤ (qpStep leader st op).1.latest_proposed_view
    ∧ st.latest_proposed_view ≤ (qpExec leader st ops).latest_proposed_view
    ∧ qpPublishedCount leader (qpInit latest0) ops v ≤ 1 := by
  refine ⟨qpStep_create_iff leader st v, qpStep_latest_mono leader st op,
    qpExec_latest_mono leader st ops, ?_⟩
  have h := qpPublishedCount_le leader (qpInit latest0) ops v
  have hc := qpCreatedCount_le_one leader (qpInit latest0) ops v
  have hcredit :
      (if (qpInit latest0).proposal_dependencies v = some true then 1 else 0) = 0 := by
    simp [qpInit]
  omega

end HotShot
